import Mathlib

/-!
Shallow embedding of `src/Shell.c`, a small Unix shell.

The C program has four parts relevant to the specification:
* `trim_whitespace` (lines 41-60): strips leading/trailing `isspace` characters,
* `parse_command` (lines 76-221): splits a line on `|` with `strsep`, tokenizes
  each segment on space/tab, classifies `<`, `>`, `&` and positional arguments,
  and cross-validates redirection placement across pipeline segments,
* `redirect_io` (lines 228-256): opens the redirection files in a child process,
* `execute_commands` (lines 269-373): intercepts the `exit`/`cd` built-ins for a
  single-stage pipeline and otherwise forks one process per stage, printing a
  `[pid]` notification for background pipelines,
* `main` (lines 382-433): the read/parse/execute driver loop.

The parser is embedded as a pure function on the character list of the input
line.  The executor performs I/O (fork, chdir, open); it is embedded as a
function that returns a record of its observable effects, parameterised by
the environment (`HOME`) and by an oracle `chdirOk` saying which `chdir`
calls succeed.
-/

namespace Shell

/-- `MAX_ARGS` from Shell.c line 25. -/
def MAX_ARGS : Nat := 128

/-- `MAX_PIPE` from Shell.c line 26. -/
def MAX_PIPE : Nat := 16

/-- C `isspace` in the default locale (used via `trim_whitespace` and the
`&`-trailing check, Shell.c lines 46, 55, 176): space, tab, newline,
vertical tab (11), form feed (12), carriage return. -/
def isSpaceC (c : Char) : Bool :=
  c = ' ' || c = '\t' || c = '\n' || c = Char.ofNat 11 || c = Char.ofNat 12 || c = '\r'

/-- The delimiters of `strsep(&token_ptr, " \t")` (Shell.c line 127): space and tab. -/
def isTokDelim (c : Char) : Bool :=
  c = ' ' || c = '\t'

/-- Splitting a character list at every delimiter character, keeping empty
pieces, exactly as repeated `strsep` calls produce them: `strsep` returns one
(possibly empty) token per delimiter occurrence plus a final token.  The
result is always non-empty. -/
def splitOnPred (p : Char → Bool) : List Char → List (List Char)
  | [] => [[]]
  | c :: rest =>
      if p c then [] :: splitOnPred p rest
      else
        match splitOnPred p rest with
        | [] => [[c]]
        | t :: ts => (c :: t) :: ts

/-- `trim_whitespace` (Shell.c lines 41-60): drop leading `isspace` characters,
then drop trailing ones.  (The C version writes the terminator in place; the
result string is the same.) -/
def trim_whitespace (s : List Char) : List Char :=
  ((s.dropWhile isSpaceC).reverse.dropWhile isSpaceC).reverse

/-- The `Command` structure (Shell.c lines 29-34).  The C version stores the
arguments in a NULL-terminated array of at most `MAX_ARGS` pointers; here they
are the list of the non-NULL entries in order. -/
structure Command where
  args : List String
  input_file : Option String
  output_file : Option String
  background : Bool
  deriving DecidableEq, Repr

/-- The freshly initialised `Command` (Shell.c lines 114-119). -/
def initCommand : Command :=
  { args := [], input_file := none, output_file := none, background := false }

/-- The distinct syntax-error exits of `parse_command`, one constructor per
`return -1` site, carrying the data printed in the message.
`inputRedirNotAllowed`/`outputRedirNotAllowed` carry the 1-based segment
index printed at Shell.c lines 209 and 213. -/
inductive ParseErr where
  /-- line 89: "syntax error near unexpected token `|`" (empty segment) -/
  | emptySegment
  /-- line 93: "too many pipeline segments (max 16)" -/
  | tooManySegments
  /-- line 106: "missing command in pipeline" (all-whitespace segment, several segments) -/
  | missingCommandInPipeline
  /-- lines 108 and 200: "missing command" -/
  | missingCommand
  /-- line 139: "syntax error near unexpected token `<`" (no file after `<`) -/
  | missingInputOperand
  /-- line 143: "cannot redirect input more than once" -/
  | dupInputRedirect
  /-- line 156: "syntax error near unexpected token `>`" (no file after `>`) -/
  | missingOutputOperand
  /-- line 160: "cannot redirect output more than once" -/
  | dupOutputRedirect
  /-- line 169: "`&` can only appear at end of command" (non-final segment) -/
  | ampNotLast
  /-- line 183: "syntax error near unexpected token `&`" (content follows `&`) -/
  | ampTrailing
  /-- line 193: "too many arguments (max 127)" -/
  | tooManyArgs
  /-- line 209: "input redirection not allowed for command i in pipeline", 1-based i -/
  | inputRedirNotAllowed (i : Nat)
  /-- line 213: "output redirection not allowed for command i in pipeline", 1-based i -/
  | outputRedirNotAllowed (i : Nat)
  deriving DecidableEq, Repr

/-- The segment-splitting checks of `parse_command` (Shell.c lines 86-97): the
line is split on `|`; an empty segment is an error (checked first, line 87),
and storing more than `MAX_PIPE` segments is an error (line 92).  `n` counts
the segments already stored. -/
def checkSegments : Nat → List (List Char) → Option ParseErr
  | _, [] => none
  | n, s :: rest =>
      if s = [] then some .emptySegment
      else if MAX_PIPE ≤ n then some .tooManySegments
      else checkSegments (n + 1) rest

/-- Segment tokenization: the C loop pulls space/tab-separated tokens with
`strsep` and skips empty tokens everywhere it reads one (Shell.c lines
128-131 in the main loop, 135-137 and 152-154 when reading a redirection
operand), so we drop the empty tokens at split time; the remaining
processing is on the non-empty tokens in order. -/
def tokenizeSegment (seg : List Char) : List (List Char) :=
  (splitOnPred isTokDelim seg).filter (fun t => !t.isEmpty)

/-- The per-segment token loop of `parse_command` (Shell.c lines 127-202),
operating on the non-empty tokens of the segment.  `isLast` is the C test
`i == segment_count - 1` used by the `&` case (line 168).  For the `&` case,
the C code scans the raw remainder of the segment for non-`isspace`
characters (lines 173-181); the remainder is exactly the later tokens joined
by space/tab delimiters, so it is all-whitespace iff every later token
consists of `isspace` characters only.  The duplicate-redirection tests
`input_count++ > 0` / `output_count++ > 0` (lines 142, 159) are equivalent to
the corresponding file field being already set, since the counter and the
field are only written together.  After the loop the C code rejects a
segment with zero positional arguments (lines 198-202); the accepted-`&`
`break` (line 187) jumps straight to that check. -/
def parseSegTokens (isLast : Bool) (cmd : Command) : List (List Char) → Except ParseErr Command
  | [] => if cmd.args = [] then .error .missingCommand else .ok cmd
  | tok :: rest =>
      if tok = ['<'] then
        match rest with
        | [] => .error .missingInputOperand
        | operand :: rest2 =>
            if cmd.input_file.isSome then .error .dupInputRedirect
            else parseSegTokens isLast { cmd with input_file := some (String.mk operand) } rest2
      else if tok = ['>'] then
        match rest with
        | [] => .error .missingOutputOperand
        | operand :: rest2 =>
            if cmd.output_file.isSome then .error .dupOutputRedirect
            else parseSegTokens isLast { cmd with output_file := some (String.mk operand) } rest2
      else if tok = ['&'] then
        if isLast then
          if rest.all (fun t => t.all isSpaceC) then
            if cmd.args = [] then .error .missingCommand
            else .ok { cmd with background := true }
          else .error .ampTrailing
        else .error .ampNotLast
      else
        if cmd.args.length < MAX_ARGS - 1 then
          parseSegTokens isLast { cmd with args := cmd.args ++ [String.mk tok] } rest
        else .error .tooManyArgs

/-- Parsing of one pipeline segment (Shell.c lines 100-203 body for one `i`):
trim it, reject an all-whitespace segment with the phrasing that depends on
the segment count (lines 103-111), then run the token loop on a fresh
`Command`. -/
def parseSegment (total : Nat) (isLast : Bool) (seg : List Char) : Except ParseErr Command :=
  if trim_whitespace seg = [] then
    .error (if 1 < total then .missingCommandInPipeline else .missingCommand)
  else parseSegTokens isLast initCommand (tokenizeSegment (trim_whitespace seg))

/-- The segment loop of `parse_command` (Shell.c lines 100-203): parse the
segments left to right, stopping at the first error.  `i` is the 0-based
index of the first segment of the remaining list; `total` is
`segment_count`. -/
def parseSegsLoop (total : Nat) : Nat → List (List Char) → Except ParseErr (List Command)
  | _, [] => .ok []
  | i, seg :: rest =>
      match parseSegment total (i + 1 == total) seg with
      | .error e => .error e
      | .ok cmd =>
          match parseSegsLoop total (i + 1) rest with
          | .error e => .error e
          | .ok cmds => .ok (cmd :: cmds)

/-- The cross-segment validation loop (Shell.c lines 207-216), run only when
`segment_count > 1`: walking the stages in order, a non-first stage with an
input file and then a non-last stage with an output file are errors naming
the 1-based stage index.  `n` is `segment_count`, `i` the index of the first
remaining stage. -/
def crossValidate (n : Nat) : Nat → List Command → Option ParseErr
  | _, [] => none
  | i, c :: rest =>
      if i ≠ 0 ∧ c.input_file.isSome then some (.inputRedirNotAllowed (i + 1))
      else if i + 1 ≠ n ∧ c.output_file.isSome then some (.outputRedirNotAllowed (i + 1))
      else crossValidate n (i + 1) rest

/-- The body of `parse_command` after the `strsep` split on `|`: segment
checks (lines 86-97), the per-segment loop (lines 100-203) and, for a real
pipeline, the cross-segment validation (lines 205-217). -/
def parseLine (segs : List (List Char)) : Except ParseErr (List Command) :=
  match checkSegments 0 segs with
  | some e => .error e
  | none =>
      match parseSegsLoop segs.length 0 segs with
      | .error e => .error e
      | .ok cmds =>
          if 1 < segs.length then
            match crossValidate segs.length 0 cmds with
            | some e => .error e
            | none => .ok cmds
          else .ok cmds

/-- `parse_command` (Shell.c lines 76-221).  On success the C function fills
`commands[0..segment_count)` and writes `*num_commands = segment_count`; the
returned list holds those commands in order, so the reported stage count is
the length of the list.  On error the C function returns `-1` without
writing `*num_commands`; this is the `.error` case. -/
def parse_command (input : String) : Except ParseErr (List Command) :=
  parseLine (splitOnPred (fun c => c = '|') input.data)

/-- The observable effects of one `execute_commands` call (Shell.c lines
269-373), with process scheduling abstracted away:
* `signal`: the returned int, `1` = continue the driver loop, `2` = exit;
* `spawnCount`: how many child processes are forked;
* `newCwd` / `cdError`: the working directory after the call and, on a failed
  `chdir`, the path printed in the `cd: path: reason` message (line 292);
* `bgNotify`: whether the `[pid]` background notification is printed (line 364);
* `inputsOpened` / `outputsOpened`: the redirection files the children open
  via `redirect_io` (Shell.c lines 228-256; inputs `O_RDONLY`, outputs
  `O_WRONLY|O_CREAT|O_TRUNC`). -/
structure ExecEffects where
  signal : Nat
  spawnCount : Nat
  newCwd : String
  cdError : Option String
  bgNotify : Bool
  inputsOpened : List String
  outputsOpened : List String
  deriving DecidableEq, Repr

/-- An `ExecEffects` with no spawn, no cwd change and no output. -/
def pureEffects (cwd : String) (signal : Nat) : ExecEffects :=
  { signal := signal, spawnCount := 0, newCwd := cwd, cdError := none,
    bgNotify := false, inputsOpened := [], outputsOpened := [] }

/-- The external-pipeline path of `execute_commands` (Shell.c lines 298-372),
assuming `pipe` and `fork` succeed: one child per stage; each child runs
`redirect_io` on its stage, opening the input file and then the output file
if set (lines 229-254); if the last stage is background the parent prints
`[pid]` and does not wait (lines 363-365), otherwise it waits for all
children.  Called with a non-empty stage list. -/
def runExternal (cwd : String) (cmds : List Command) : ExecEffects :=
  { signal := 1
    spawnCount := cmds.length
    newCwd := cwd
    cdError := none
    bgNotify := (cmds.getLastD initCommand).background
    inputsOpened := cmds.filterMap (fun c => c.input_file)
    outputsOpened := cmds.filterMap (fun c => c.output_file) }

/-- `execute_commands` (Shell.c lines 269-373).  `home` is `getenv("HOME")`,
`chdirOk d` tells whether `chdir(d)` succeeds, `cwd` is the working directory
on entry.  With no stages it returns `1` (line 271).  With exactly one stage:
a NULL `args[0]` returns `1` (line 277); `exit` returns `2` at once (line
280); `cd` resolves its target — `args[1]`, else `HOME`, else `"."` (lines
283-290) — calls `chdir` and on failure prints `cd: path: reason` where the
path is `args[1]` if present and the resolved target otherwise (line 292),
returning `1` either way.  Any other shape falls through to the external
path. -/
def execute_commands (home : Option String) (chdirOk : String → Bool) (cwd : String) :
    List Command → ExecEffects
  | [] => pureEffects cwd 1
  | [cmd] =>
      match cmd.args with
      | [] => pureEffects cwd 1
      | a0 :: rest =>
          if a0 = "exit" then pureEffects cwd 2
          else if a0 = "cd" then
            let dir := match rest with
              | d :: _ => d
              | [] => match home with
                | some h => h
                | none => "."
            if chdirOk dir then { pureEffects dir 1 with newCwd := dir }
            else { pureEffects cwd 1 with
                     cdError := some (match rest with | d :: _ => d | [] => dir) }
          else runExternal cwd [cmd]
  | cmds => runExternal cwd cmds

/-- The outcome of one iteration of the driver loop on one line (Shell.c
lines 406-428): `signal` is the loop-control value (`1` keeps looping, `2`
breaks; a skipped or unparsable line continues with `1`), `spawned` the
number of processes forked for the line, `parseFailed` whether
`parse_command` rejected the line. -/
structure LineOutcome where
  signal : Nat
  spawned : Nat
  parseFailed : Bool
  deriving DecidableEq, Repr

/-- One iteration of `main`'s loop on one already-read line (Shell.c lines
406-424): trim it; skip it if blank; parse it, and on a parse error just
continue; otherwise execute.  On a parse error `execute_commands` is never
reached, so nothing is spawned. -/
def process_line (home : Option String) (chdirOk : String → Bool) (cwd : String)
    (line : String) : LineOutcome :=
  if String.mk (trim_whitespace line.data) = "" then
    { signal := 1, spawned := 0, parseFailed := false }
  else
    match parse_command (String.mk (trim_whitespace line.data)) with
    | .error _ => { signal := 1, spawned := 0, parseFailed := true }
    | .ok cmds =>
        { signal := (execute_commands home chdirOk cwd cmds).signal
          spawned := (execute_commands home chdirOk cwd cmds).spawnCount
          parseFailed := false }

/-- The boundary test line `"x x … x"` with `k` space-separated one-letter
arguments (a single pipeline segment). -/
def argsLine : Nat → List Char
  | 0 => []
  | 1 => ['x']
  | k+2 => 'x' :: ' ' :: argsLine (k+1)

/-- The boundary test line `"x|x|…|x"` with `k` pipe-separated one-letter
commands. -/
def pipesLine : Nat → List Char
  | 0 => []
  | 1 => ['x']
  | k+2 => 'x' :: '|' :: pipesLine (k+1)

/-! ### Structural lemmas about the parser -/

/-- `strsep` always yields at least one token: the split of any character list
is a non-empty list of pieces. -/
theorem splitOnPred_ne_nil (p : Char → Bool) (l : List Char) : splitOnPred p l ≠ [] := by
  cases l with
  | nil => simp [splitOnPred]
  | cons c rest =>
      unfold splitOnPred
      split
      · simp
      · split <;> simp

/-- Every `Command` accepted by the token loop has at least one positional
argument: both `.ok` exits of the loop are guarded by the
`arg_index == 0` check of Shell.c lines 198-202. -/
theorem parseSegTokens_ok_args_ne_nil (isLast : Bool) (cmd : Command)
    (toks : List (List Char)) :
    ∀ c : Command, parseSegTokens isLast cmd toks = .ok c → c.args ≠ [] := by
  induction cmd, toks using parseSegTokens.induct isLast with
  | case1 cmd hargs =>
      intro c h; rw [parseSegTokens.eq_def] at h; simp [hargs] at h
  | case2 cmd hargs =>
      intro c h; rw [parseSegTokens.eq_def] at h; simp [hargs] at h
      exact h ▸ hargs
  | case3 cmd =>
      intro c h; rw [parseSegTokens.eq_def] at h; simp at h
  | case4 cmd t ts hsome =>
      intro c h; rw [parseSegTokens.eq_def] at h; simp [hsome] at h
  | case5 cmd t ts hsome ih =>
      intro c h; rw [parseSegTokens.eq_def] at h; simp [hsome] at h
      exact ih c h
  | case6 cmd hne =>
      intro c h; rw [parseSegTokens.eq_def] at h; simp at h
  | case7 cmd t ts hsome hne =>
      intro c h; rw [parseSegTokens.eq_def] at h; simp [hsome] at h
  | case8 cmd t ts hsome hne ih =>
      intro c h; rw [parseSegTokens.eq_def] at h; simp [hsome] at h
      exact ih c h
  | case9 cmd ts hlast hws hargs =>
      intro c h; rw [parseSegTokens.eq_def] at h; simp [hlast, hws, hargs] at h
  | case10 cmd ts hlast hws hargs =>
      intro c h; rw [parseSegTokens.eq_def] at h; simp [hlast, hws, hargs] at h
      rw [← h]
      simpa using hargs
  | case11 cmd ts hlast hws =>
      intro c h; rw [parseSegTokens.eq_def] at h; simp [hlast, hws] at h
  | case12 cmd ts hlast =>
      intro c h
      rw [Bool.not_eq_true] at hlast
      subst hlast
      rw [parseSegTokens.eq_def] at h; simp at h
  | case13 cmd t ts h1 h2 h3 hroom ih =>
      intro c h; rw [parseSegTokens.eq_def] at h; simp [h1, h2, h3, hroom] at h
      exact ih c h
  | case14 cmd t ts h1 h2 h3 hroom =>
      intro c h; rw [parseSegTokens.eq_def] at h; simp [h1, h2, h3, hroom] at h

/-- When a segment is not the last one (`isLast = false`), the token loop
never sets the background flag: the only assignment to it (Shell.c line 186)
is behind the `i == segment_count - 1` test of line 168. -/
theorem parseSegTokens_not_last_background (cmd : Command) (toks : List (List Char)) :
    ∀ c : Command, parseSegTokens false cmd toks = .ok c → c.background = cmd.background := by
  induction cmd, toks using parseSegTokens.induct false with
  | case1 cmd hargs =>
      intro c h; rw [parseSegTokens.eq_def] at h; simp [hargs] at h
  | case2 cmd hargs =>
      intro c h; rw [parseSegTokens.eq_def] at h; simp [hargs] at h
      exact h ▸ rfl
  | case3 cmd =>
      intro c h; rw [parseSegTokens.eq_def] at h; simp at h
  | case4 cmd t ts hsome =>
      intro c h; rw [parseSegTokens.eq_def] at h; simp [hsome] at h
  | case5 cmd t ts hsome ih =>
      intro c h; rw [parseSegTokens.eq_def] at h; simp [hsome] at h
      exact ih c h
  | case6 cmd hne =>
      intro c h; rw [parseSegTokens.eq_def] at h; simp at h
  | case7 cmd t ts hsome hne =>
      intro c h; rw [parseSegTokens.eq_def] at h; simp [hsome] at h
  | case8 cmd t ts hsome hne ih =>
      intro c h; rw [parseSegTokens.eq_def] at h; simp [hsome] at h
      exact ih c h
  | case9 cmd ts hlast hws hargs => exact absurd hlast (by simp)
  | case10 cmd ts hlast hws hargs => exact absurd hlast (by simp)
  | case11 cmd ts hlast hws => exact absurd hlast (by simp)
  | case12 cmd ts hlast =>
      intro c h; rw [parseSegTokens.eq_def] at h; simp at h
  | case13 cmd t ts h1 h2 h3 hroom ih =>
      intro c h; rw [parseSegTokens.eq_def] at h; simp [h1, h2, h3, hroom] at h
      exact ih c h
  | case14 cmd t ts h1 h2 h3 hroom =>
      intro c h; rw [parseSegTokens.eq_def] at h; simp [h1, h2, h3, hroom] at h

/-- A successfully parsed segment has a non-empty argument list. -/
theorem parseSegment_ok_args_ne_nil (total : Nat) (isLast : Bool) (seg : List Char)
    (c : Command) (h : parseSegment total isLast seg = .ok c) : c.args ≠ [] := by
  unfold parseSegment at h
  split at h
  · cases h
  · exact parseSegTokens_ok_args_ne_nil isLast initCommand _ c h

/-- A successfully parsed non-last segment is not marked background. -/
theorem parseSegment_not_last_background (total : Nat) (seg : List Char)
    (c : Command) (h : parseSegment total false seg = .ok c) : c.background = false := by
  unfold parseSegment at h
  split at h
  · cases h
  · exact parseSegTokens_not_last_background initCommand _ c h

/-- The segment loop produces exactly one `Command` per segment. -/
theorem parseSegsLoop_length (total : Nat) (segs : List (List Char)) :
    ∀ i cmds, parseSegsLoop total i segs = .ok cmds → cmds.length = segs.length := by
  induction segs with
  | nil =>
      intro i cmds h
      unfold parseSegsLoop at h
      injection h with h2
      simp [← h2]
  | cons seg rest ih =>
      intro i cmds h
      unfold parseSegsLoop at h
      split at h
      · cases h
      · split at h
        · cases h
        · next cmd _ cmds2 hrest =>
            injection h with h2
            simp [← h2, ih (i + 1) cmds2 hrest]

/-- Every stage produced by the segment loop has a non-empty argument list. -/
theorem parseSegsLoop_args_ne_nil (total : Nat) (segs : List (List Char)) :
    ∀ i cmds, parseSegsLoop total i segs = .ok cmds → ∀ c ∈ cmds, c.args ≠ [] := by
  induction segs with
  | nil =>
      intro i cmds h
      unfold parseSegsLoop at h
      injection h with h2
      simp [← h2]
  | cons seg rest ih =>
      intro i cmds h
      unfold parseSegsLoop at h
      split at h
      · cases h
      · next cmd hcmd =>
          split at h
          · cases h
          · next cmds2 hrest =>
              injection h with h2
              intro c hc
              rw [← h2] at hc
              rcases List.mem_cons.mp hc with hc1 | hc2
              · exact hc1 ▸ parseSegment_ok_args_ne_nil total _ seg cmd hcmd
              · exact ih (i + 1) cmds2 hrest c hc2

/-- Every stage the segment loop parses at a position other than the final
one has `background = false`: position `i + j` is final iff `i + j + 1`
equals the segment count. -/
theorem parseSegsLoop_background (total : Nat) (segs : List (List Char)) :
    ∀ i cmds, parseSegsLoop total i segs = .ok cmds →
      ∀ j (hj : j < cmds.length), i + j + 1 ≠ total →
        (cmds.get ⟨j, hj⟩).background = false := by
  induction segs with
  | nil =>
      intro i cmds h j hj _
      unfold parseSegsLoop at h
      injection h with h2
      rw [← h2] at hj
      exact absurd hj (by simp)
  | cons seg rest ih =>
      intro i cmds h j hj hne
      unfold parseSegsLoop at h
      split at h
      · cases h
      · next cmd hcmd =>
          split at h
          · cases h
          · next cmds2 hrest =>
              injection h with h2
              subst h2
              cases j with
              | zero =>
                  have hb : (i + 1 == total) = false := by
                    simp only [beq_eq_false_iff_ne, ne_eq]
                    omega
                  rw [hb] at hcmd
                  exact parseSegment_not_last_background total seg cmd hcmd
              | succ j2 =>
                  exact ih (i + 1) cmds2 hrest j2 (by simpa using hj) (by omega)

/-- If the segment checks pass on a non-empty list of segments starting at
stored count `n`, there are at most `MAX_PIPE` segments in total. -/
theorem checkSegments_bound (segs : List (List Char)) :
    ∀ n, checkSegments n segs = none → segs ≠ [] → n + segs.length ≤ MAX_PIPE := by
  induction segs with
  | nil => intro n _ hne; exact absurd rfl hne
  | cons s rest ih =>
      intro n h _
      unfold checkSegments at h
      split at h
      · cases h
      · split at h
        · cases h
        · next hn =>
            cases rest with
            | nil => simp; omega
            | cons r rest2 =>
                have := ih (n + 1) h (by simp)
                simp at this ⊢
                omega

/-- When the cross-segment validation of Shell.c lines 207-216 succeeds,
no stage at an index other than `0` (counting from `i`) has an input file,
and no stage at an index other than the last (`n - 1`) has an output file. -/
theorem crossValidate_none (n : Nat) (cmds : List Command) :
    ∀ i, crossValidate n i cmds = none →
      ∀ j (hj : j < cmds.length),
        (i + j ≠ 0 → (cmds.get ⟨j, hj⟩).input_file = none) ∧
        (i + j + 1 ≠ n → (cmds.get ⟨j, hj⟩).output_file = none) := by
  induction cmds with
  | nil => intro i _ j hj; exact absurd hj (by simp)
  | cons c rest ih =>
      intro i h j hj
      unfold crossValidate at h
      split at h
      · cases h
      · split at h
        · cases h
        · next h1 h2 =>
            cases j with
            | zero =>
                refine ⟨fun hi => ?_, fun hn => ?_⟩
                · cases hin : c.input_file with
                  | none => simpa using hin
                  | some v =>
                      exact absurd ⟨by simpa using hi, by simp [hin]⟩ h1
                · cases hout : c.output_file with
                  | none => simpa using hout
                  | some v =>
                      exact absurd ⟨by simpa using hn, by simp [hout]⟩ h2
            | succ j2 =>
                have := ih (i + 1) h j2 (by simpa using hj)
                refine ⟨fun _ => ?_, fun hn => ?_⟩
                · exact this.1 (by omega)
                · exact this.2 (by omega)

/-- Inversion for a successful `parseLine`: the segment checks passed, the
segment loop produced the result, and (for a real pipeline) the
cross-segment validation passed. -/
theorem parseLine_ok_inv (segs : List (List Char)) (cmds : List Command)
    (h : parseLine segs = .ok cmds) :
    checkSegments 0 segs = none ∧
    parseSegsLoop segs.length 0 segs = .ok cmds ∧
    (1 < segs.length → crossValidate segs.length 0 cmds = none) := by
  unfold parseLine at h
  split at h
  · cases h
  · next hchk =>
      split at h
      · cases h
      · next cmds0 hloop =>
          split at h
          · next hlen =>
              split at h
              · cases h
              · next hcv =>
                  injection h with h2
                  subst h2
                  exact ⟨hchk, hloop, fun _ => hcv⟩
          · next hlen =>
              injection h with h2
              subst h2
              exact ⟨hchk, hloop, fun hc => absurd hc hlen⟩

/-! ### Structural lemmas about the executor -/

/-- A single-stage `exit` hits the built-in interception of Shell.c line 279:
return value `2`, nothing else happens. -/
theorem execute_commands_exit (home : Option String) (chdirOk : String → Bool)
    (cwd : String) (rest : List String) (i o : Option String) (b : Bool) :
    execute_commands home chdirOk cwd
      [{ args := "exit" :: rest, input_file := i, output_file := o, background := b }] =
      pureEffects cwd 2 := rfl

/-- A pipeline of two or more stages skips the built-in block (guarded by
`num_commands == 1`, Shell.c line 274) and runs the external path. -/
theorem execute_commands_multi (home : Option String) (chdirOk : String → Bool)
    (cwd : String) (c1 c2 : Command) (rest : List Command) :
    execute_commands home chdirOk cwd (c1 :: c2 :: rest) =
      runExternal cwd (c1 :: c2 :: rest) := rfl

/-- A single-stage `cd` with an explicit argument `d` (Shell.c lines 282-295):
`chdir(d)`; on failure the reported path is `args[1] = d` and the working
directory is unchanged. -/
theorem execute_commands_cd_arg (home : Option String) (chdirOk : String → Bool)
    (cwd d : String) (rest : List String) (i o : Option String) (b : Bool) :
    execute_commands home chdirOk cwd
      [{ args := "cd" :: d :: rest, input_file := i, output_file := o, background := b }] =
      if chdirOk d then { pureEffects d 1 with newCwd := d }
      else { pureEffects cwd 1 with cdError := some d } := by
  simp [execute_commands]

/-- A single-stage `cd` with no argument (Shell.c lines 284-290): the target
is `HOME` when set and `"."` otherwise, and that target is also the path
reported on failure. -/
theorem execute_commands_cd_noarg (home : Option String) (chdirOk : String → Bool)
    (cwd : String) (i o : Option String) (b : Bool) :
    execute_commands home chdirOk cwd
      [{ args := ["cd"], input_file := i, output_file := o, background := b }] =
      if chdirOk (home.getD ".") then
        { pureEffects (home.getD ".") 1 with newCwd := home.getD "." }
      else { pureEffects cwd 1 with cdError := some (home.getD ".") } := by
  cases home <;> simp [execute_commands, Option.getD]

/-- Every branch of `execute_commands` returns `1` or `2` (Shell.c returns
`1` at lines 271, 277, 294, 372 and `2` at line 280). -/
theorem execute_commands_signal_cases (home : Option String) (chdirOk : String → Bool)
    (cwd : String) (cmds : List Command) :
    (execute_commands home chdirOk cwd cmds).signal = 1 ∨
    (execute_commands home chdirOk cwd cmds).signal = 2 := by
  match cmds with
  | [] => exact .inl rfl
  | [cmd] =>
      rcases hargs : cmd.args with _ | ⟨a0, args2⟩
      · left
        simp [execute_commands, hargs, pureEffects]
      · by_cases hexit : a0 = "exit"
        · right
          simp [execute_commands, hargs, hexit, pureEffects]
        · by_cases hcd : a0 = "cd"
          · left
            subst hcd
            obtain ⟨args, i, o, b⟩ := cmd
            simp only at hargs
            subst hargs
            rcases args2 with _ | ⟨d, rest2⟩
            · rw [execute_commands_cd_noarg]
              split <;> rfl
            · rw [execute_commands_cd_arg]
              split <;> rfl
          · left
            simp [execute_commands, hargs, hexit, hcd, runExternal]
  | c1 :: c2 :: rest => exact .inl rfl

/-! ### Lemmas for the boundary inputs of C6 -/

theorem argsLine_ne_nil : ∀ k : Nat, argsLine (k+1) ≠ [] := by
  intro k
  cases k with
  | zero => simp [argsLine]
  | succ k2 => simp [argsLine]

theorem splitOnPred_cons_neg (p : Char → Bool) (c : Char) (l : List Char) (h : p c = false) :
    splitOnPred p (c :: l) =
      match splitOnPred p l with
      | [] => [[c]]
      | t :: ts => (c :: t) :: ts := by
  rw [splitOnPred.eq_2, h, if_neg Bool.false_ne_true]
  try rfl

theorem splitOnPred_cons_pos (p : Char → Bool) (c : Char) (l : List Char) (h : p c = true) :
    splitOnPred p (c :: l) = [] :: splitOnPred p l := by
  rw [splitOnPred.eq_2, h, if_pos rfl]

theorem splitPipe_argsLine : ∀ k : Nat,
    splitOnPred (fun c => c = '|') (argsLine (k+1)) = [argsLine (k+1)] := by
  intro k
  induction k with
  | zero => rfl
  | succ k2 ih =>
      show splitOnPred (fun c => c = '|') ('x' :: ' ' :: argsLine (k2+1)) = _
      rw [splitOnPred_cons_neg _ 'x' _ rfl, splitOnPred_cons_neg _ ' ' _ rfl, ih]
      rfl

theorem splitTok_argsLine : ∀ k : Nat,
    splitOnPred isTokDelim (argsLine (k+1)) = List.replicate (k+1) ['x'] := by
  intro k
  induction k with
  | zero => rfl
  | succ k2 ih =>
      show splitOnPred isTokDelim ('x' :: ' ' :: argsLine (k2+1)) = _
      rw [splitOnPred_cons_neg _ 'x' _ rfl, splitOnPred_cons_pos _ ' ' _ rfl, ih]
      rfl

theorem splitPipe_pipesLine : ∀ k : Nat,
    splitOnPred (fun c => c = '|') (pipesLine (k+1)) = List.replicate (k+1) ['x'] := by
  intro k
  induction k with
  | zero => rfl
  | succ k2 ih =>
      show splitOnPred (fun c => c = '|') ('x' :: '|' :: pipesLine (k2+1)) = _
      rw [splitOnPred_cons_neg _ 'x' _ rfl, splitOnPred_cons_pos _ '|' _ rfl, ih]
      rfl

theorem argsLine_reverse_head : ∀ k : Nat, (argsLine (k+1)).reverse.head? = some 'x' := by
  intro k
  induction k with
  | zero => rfl
  | succ k2 ih =>
      show ('x' :: ' ' :: argsLine (k2+1)).reverse.head? = some 'x'
      rw [List.reverse_cons, List.reverse_cons, List.append_assoc]
      rw [List.head?_append, ih]
      rfl

theorem dropWhile_head_false {p : Char → Bool} :
    ∀ l : List Char, (∀ a, l.head? = some a → p a = false) → l.dropWhile p = l := by
  intro l h
  cases l with
  | nil => rfl
  | cons c rest =>
      have hc := h c rfl
      simp [List.dropWhile_cons, hc]

theorem trim_argsLine : ∀ k : Nat, trim_whitespace (argsLine (k+1)) = argsLine (k+1) := by
  intro k
  unfold trim_whitespace
  rw [dropWhile_head_false (argsLine (k+1))]
  · rw [dropWhile_head_false (argsLine (k+1)).reverse]
    · exact List.reverse_reverse _
    · intro a ha
      rw [argsLine_reverse_head k] at ha
      injection ha with ha2
      rw [← ha2]
      rfl
  · intro a ha
    cases k with
    | zero => injection ha with ha2; rw [← ha2]; rfl
    | succ k2 => injection ha with ha2; rw [← ha2]; rfl

theorem filter_replicate_x (n : Nat) :
    (List.replicate n ['x']).filter (fun t => !t.isEmpty) = List.replicate n ['x'] := by
  induction n with
  | zero => rfl
  | succ n2 ih =>
      rw [List.replicate_succ, List.filter_cons]
      simp only [ih]
      rfl

theorem tokenizeSegment_argsLine : ∀ k : Nat,
    tokenizeSegment (argsLine (k+1)) = List.replicate (k+1) ['x'] := by
  intro k
  unfold tokenizeSegment
  rw [splitTok_argsLine k, filter_replicate_x]

theorem parseSegment_argsLine (total k : Nat) (isLast : Bool) :
    parseSegment total isLast (argsLine (k+1)) =
      parseSegTokens isLast initCommand (List.replicate (k+1) ['x']) := by
  unfold parseSegment
  rw [trim_argsLine k, if_neg (argsLine_ne_nil k), tokenizeSegment_argsLine k]

theorem parseSegTokens_replicate_ok (isLast : Bool) :
    ∀ (k : Nat) (cmd : Command), cmd.args.length + k ≤ MAX_ARGS - 1 →
      (cmd.args = [] → 1 ≤ k) →
      parseSegTokens isLast cmd (List.replicate k ['x']) =
        .ok { cmd with args := cmd.args ++ List.replicate k "x" } := by
  intro k
  induction k with
  | zero =>
      intro cmd hle hne
      rw [List.replicate_zero, parseSegTokens.eq_def]
      have hargs : cmd.args ≠ [] := by
        intro hc
        exact absurd (hne hc) (by omega)
      rw [if_neg hargs]
      simp
  | succ k2 ih =>
      intro cmd hle _
      rw [List.replicate_succ, parseSegTokens.eq_def]
      simp only [if_neg (by decide : ¬(['x'] : List Char) = ['<']),
        if_neg (by decide : ¬(['x'] : List Char) = ['>']),
        if_neg (by decide : ¬(['x'] : List Char) = ['&']),
        if_pos (show cmd.args.length < MAX_ARGS - 1 by omega)]
      rw [ih { cmd with args := cmd.args ++ [String.mk ['x']] }
        (by simp; omega) (by simp)]
      have hx : String.mk ['x'] = "x" := rfl
      simp [hx, List.append_assoc, List.replicate_succ]

theorem parseSegTokens_replicate_overflow (isLast : Bool) :
    ∀ (k : Nat) (cmd : Command), cmd.args.length + k = MAX_ARGS - 1 →
      parseSegTokens isLast cmd (List.replicate (k+1) ['x']) = .error .tooManyArgs := by
  intro k
  induction k with
  | zero =>
      intro cmd he
      rw [List.replicate_succ, List.replicate_zero, parseSegTokens.eq_def]
      simp only [if_neg (by decide : ¬(['x'] : List Char) = ['<']),
        if_neg (by decide : ¬(['x'] : List Char) = ['>']),
        if_neg (by decide : ¬(['x'] : List Char) = ['&']),
        if_neg (show ¬cmd.args.length < MAX_ARGS - 1 by omega)]
  | succ k2 ih =>
      intro cmd he
      rw [List.replicate_succ, parseSegTokens.eq_def]
      simp only [if_neg (by decide : ¬(['x'] : List Char) = ['<']),
        if_neg (by decide : ¬(['x'] : List Char) = ['>']),
        if_neg (by decide : ¬(['x'] : List Char) = ['&']),
        if_pos (show cmd.args.length < MAX_ARGS - 1 by omega)]
      exact ih { cmd with args := cmd.args ++ [String.mk ['x']] } (by simp; omega)

theorem checkSegments_replicate_ok :
    ∀ (n i : Nat), i + n ≤ MAX_PIPE → checkSegments i (List.replicate n ['x']) = none := by
  intro n
  induction n with
  | zero => intro i _; rfl
  | succ n2 ih =>
      intro i hle
      have hle2 : i + (n2+1) ≤ 16 := hle
      rw [List.replicate_succ]
      unfold checkSegments
      rw [if_neg (by simp : ¬(['x'] : List Char) = []),
        if_neg (show ¬MAX_PIPE ≤ i from by show ¬(16 ≤ i); omega)]
      exact ih (i+1) (by show i + 1 + n2 ≤ 16; omega)

theorem checkSegments_replicate_overflow :
    ∀ (n i : Nat), i ≤ MAX_PIPE → MAX_PIPE < i + n →
      checkSegments i (List.replicate n ['x']) = some .tooManySegments := by
  intro n
  induction n with
  | zero => intro i h1 h2; omega
  | succ n2 ih =>
      intro i h1 h2
      rw [List.replicate_succ]
      unfold checkSegments
      rw [if_neg (by simp : ¬(['x'] : List Char) = [])]
      by_cases hi : MAX_PIPE ≤ i
      · rw [if_pos hi]
      · rw [if_neg hi]
        exact ih (i+1) (by omega) (by omega)

theorem parseSegsLoop_replicate :
    ∀ (n i total : Nat),
      parseSegsLoop total i (List.replicate n ['x']) =
        .ok (List.replicate n ⟨["x"], none, none, false⟩) := by
  intro n
  induction n with
  | zero => intro i total; rfl
  | succ n2 ih =>
      intro i total
      rw [List.replicate_succ]
      unfold parseSegsLoop
      have hseg : parseSegment total (i + 1 == total) ['x'] =
          .ok ⟨["x"], none, none, false⟩ := rfl
      rw [hseg, ih (i+1) total]
      exact rfl

theorem crossValidate_replicate :
    ∀ (m n i : Nat),
      crossValidate n i (List.replicate m ⟨["x"], none, none, false⟩) = none := by
  intro m
  induction m with
  | zero => intro n i; rfl
  | succ m2 ih =>
      intro n i
      rw [List.replicate_succ]
      unfold crossValidate
      rw [if_neg (by simp), if_neg (by simp)]
      exact ih n (i+1)

theorem parseSegsLoop_single (l : List Char) :
    parseSegsLoop [l].length 0 [l] =
      match parseSegment 1 true l with
      | .error e => .error e
      | .ok c => .ok [c] := by
  unfold parseSegsLoop
  rw [show ((0 + 1 == [l].length) : Bool) = true from rfl,
    show [l].length = 1 from rfl]
  cases hps : parseSegment 1 true l with
  | error e => rfl
  | ok c => rfl

theorem parse_command_no_pipe (l : List Char) (hne : l ≠ [])
    (hsplit : splitOnPred (fun c => c = '|') l = [l]) :
    parse_command (String.mk l) =
      match parseSegment 1 true l with
      | .error e => .error e
      | .ok c => .ok [c] := by
  show parseLine (splitOnPred (fun c => c = '|') l) = _
  rw [hsplit]
  unfold parseLine
  rw [show checkSegments 0 [l] = none from by
      unfold checkSegments
      rw [if_neg hne, if_neg (by decide : ¬MAX_PIPE ≤ 0)]
      rfl]
  rw [parseSegsLoop_single l]
  cases hps : parseSegment 1 true l with
  | error e => rfl
  | ok c => rfl

theorem parse_argsLine_127 :
    parse_command (String.mk (argsLine 127)) =
      .ok [⟨List.replicate 127 "x", none, none, false⟩] := by
  rw [parse_command_no_pipe (argsLine 127) (argsLine_ne_nil 126) (splitPipe_argsLine 126)]
  rw [parseSegment_argsLine 1 126 true]
  rw [parseSegTokens_replicate_ok true 127 initCommand (by decide) (by decide)]
  simp [initCommand]

theorem parse_argsLine_128 :
    parse_command (String.mk (argsLine 128)) = .error .tooManyArgs := by
  rw [parse_command_no_pipe (argsLine 128) (argsLine_ne_nil 127) (splitPipe_argsLine 127)]
  rw [parseSegment_argsLine 1 127 true]
  rw [parseSegTokens_replicate_overflow true 127 initCommand (by decide)]

theorem parseLine_replicate (n : Nat) (h2 : 2 ≤ n) (hle : n ≤ MAX_PIPE) :
    parseLine (List.replicate n ['x']) =
      .ok (List.replicate n ⟨["x"], none, none, false⟩) := by
  have hle2 : n ≤ 16 := hle
  unfold parseLine
  rw [checkSegments_replicate_ok n 0 (by show 0 + n ≤ 16; omega)]
  simp only [List.length_replicate]
  rw [parseSegsLoop_replicate n 0 n]
  show (if 1 < n then
      match crossValidate n 0 (List.replicate n
          ({ args := ["x"], input_file := none, output_file := none,
             background := false } : Command)) with
      | some e => Except.error e
      | none => Except.ok (List.replicate n
          ({ args := ["x"], input_file := none, output_file := none,
             background := false } : Command))
    else Except.ok (List.replicate n
        ({ args := ["x"], input_file := none, output_file := none,
           background := false } : Command))) =
    Except.ok (List.replicate n
      ({ args := ["x"], input_file := none, output_file := none,
         background := false } : Command))
  rw [if_pos (show (1:Nat) < n by omega), crossValidate_replicate n n 0]

theorem parse_pipesLine_16 :
    parse_command (String.mk (pipesLine 16)) =
      .ok (List.replicate 16 ⟨["x"], none, none, false⟩) := by
  show parseLine (splitOnPred (fun c => c = '|') (pipesLine 16)) = _
  rw [splitPipe_pipesLine 15]
  exact parseLine_replicate (15+1) (by omega) (by decide)

theorem parse_pipesLine_17 :
    parse_command (String.mk (pipesLine 17)) = .error .tooManySegments := by
  show parseLine (splitOnPred (fun c => c = '|') (pipesLine 17)) = _
  rw [splitPipe_pipesLine 16]
  unfold parseLine
  rw [checkSegments_replicate_overflow 17 0 (by decide) (by decide)]

/-! ### Claim theorems -/

/-- C1: every input line whose parse succeeds yields exactly one stage per
pipe-separated segment — the reported stage count (`*num_commands`, modelled
as the length of the returned list) equals the number of segments, which is
between 1 and `MAX_PIPE` = 16 — and every stage has a non-empty argument
list. -/
theorem C1_stage_count_and_args (input : String) (cmds : List Command)
    (h : parse_command input = .ok cmds) :
    cmds.length = (splitOnPred (fun c => c = '|') input.data).length ∧
    1 ≤ cmds.length ∧ cmds.length ≤ MAX_PIPE ∧
    ∀ c ∈ cmds, c.args ≠ [] := by
  have h2 : parseLine (splitOnPred (fun c => c = '|') input.data) = .ok cmds := h
  obtain ⟨hchk, hloop, _⟩ := parseLine_ok_inv _ cmds h2
  have hlen := parseSegsLoop_length _ _ 0 cmds hloop
  have hne := splitOnPred_ne_nil (fun c => c = '|') input.data
  have hpos : 0 < (splitOnPred (fun c => c = '|') input.data).length :=
    List.length_pos.mpr hne
  have hb := checkSegments_bound _ 0 hchk hne
  exact ⟨hlen, by omega, by omega, parseSegsLoop_args_ne_nil _ _ 0 cmds hloop⟩

/-- C1 witness: `"ls -la | grep foo"` parses to two stages and the theorem
applies to it. -/
theorem C1_witness :
    parse_command "ls -la | grep foo" =
      .ok [⟨["ls", "-la"], none, none, false⟩, ⟨["grep", "foo"], none, none, false⟩] ∧
    (([⟨["ls", "-la"], none, none, false⟩, ⟨["grep", "foo"], none, none, false⟩] :
        List Command).length =
      (splitOnPred (fun c => c = '|') ("ls -la | grep foo").data).length ∧
    1 ≤ ([⟨["ls", "-la"], none, none, false⟩, ⟨["grep", "foo"], none, none, false⟩] :
        List Command).length ∧
    ([⟨["ls", "-la"], none, none, false⟩, ⟨["grep", "foo"], none, none, false⟩] :
        List Command).length ≤ MAX_PIPE ∧
    ∀ c ∈ ([⟨["ls", "-la"], none, none, false⟩, ⟨["grep", "foo"], none, none, false⟩] :
        List Command), c.args ≠ []) :=
  ⟨rfl, C1_stage_count_and_args "ls -la | grep foo"
    [⟨["ls", "-la"], none, none, false⟩, ⟨["grep", "foo"], none, none, false⟩] rfl⟩

/-- C2: in every successfully parsed multi-stage pipeline only stage 0 may
carry an input file and only the last stage may carry an output file; a
violating line such as `"cmd1 | cmd2 < in.txt"` is rejected with an error
carrying the offending 1-based segment index (2), and the driver loop
spawns nothing for it and continues. -/
theorem C2_pipeline_redirection_invariant :
    (∀ (input : String) (cmds : List Command),
        parse_command input = .ok cmds → 1 < cmds.length →
        ∀ (j : Nat) (hj : j < cmds.length),
          (j ≠ 0 → (cmds.get ⟨j, hj⟩).input_file = none) ∧
          (j ≠ cmds.length - 1 → (cmds.get ⟨j, hj⟩).output_file = none)) ∧
    parse_command "cmd1 | cmd2 < in.txt" = .error (.inputRedirNotAllowed 2) ∧
    (∀ (home : Option String) (chdirOk : String → Bool) (cwd : String),
        process_line home chdirOk cwd "cmd1 | cmd2 < in.txt" =
          { signal := 1, spawned := 0, parseFailed := true }) := by
  refine ⟨?_, rfl, fun home chdirOk cwd => rfl⟩
  intro input cmds h hmulti j hj
  have h2 : parseLine (splitOnPred (fun c => c = '|') input.data) = .ok cmds := h
  obtain ⟨_, hloop, hcv⟩ := parseLine_ok_inv _ cmds h2
  have hlen := parseSegsLoop_length _ _ 0 cmds hloop
  have hcv2 := hcv (by omega)
  have := crossValidate_none _ cmds 0 hcv2 j hj
  exact ⟨fun hjne => this.1 (by omega), fun hjne => this.2 (by omega)⟩

/-- C2 witness: `"a | b"` parses to two stages; the invariant instantiated at
stage 1 says it has no input file. -/
theorem C2_witness :
    parse_command "a | b" =
      .ok [⟨["a"], none, none, false⟩, ⟨["b"], none, none, false⟩] ∧
    (([⟨["a"], none, none, false⟩, ⟨["b"], none, none, false⟩] :
        List Command).get ⟨1, by decide⟩).input_file = none :=
  ⟨rfl,
    ((C2_pipeline_redirection_invariant.1 "a | b"
        [⟨["a"], none, none, false⟩, ⟨["b"], none, none, false⟩]
        rfl (by decide) 1 (by decide)).1 (by decide))⟩

/-- C3: `execute_commands` intercepts built-ins only for single-stage
pipelines: a single-stage `exit` returns `2` with nothing spawned; any
pipeline of two or more stages runs externally and returns `1` (spawning one
process per stage), as does any single stage not named `exit`; every return
value is `1` or `2`. -/
theorem C3_control_signals :
    (∀ (home : Option String) (chdirOk : String → Bool) (cwd : String)
        (cmds : List Command),
        (execute_commands home chdirOk cwd cmds).signal = 1 ∨
        (execute_commands home chdirOk cwd cmds).signal = 2) ∧
    (∀ (home : Option String) (chdirOk : String → Bool) (cwd : String)
        (rest : List String) (i o : Option String) (b : Bool),
        execute_commands home chdirOk cwd
            [{ args := "exit" :: rest, input_file := i, output_file := o, background := b }] =
          pureEffects cwd 2) ∧
    (∀ (home : Option String) (chdirOk : String → Bool) (cwd : String)
        (cmds : List Command), 2 ≤ cmds.length →
        (execute_commands home chdirOk cwd cmds).signal = 1 ∧
        (execute_commands home chdirOk cwd cmds).spawnCount = cmds.length) ∧
    (∀ (home : Option String) (chdirOk : String → Bool) (cwd : String)
        (cmd : Command), cmd.args.head? ≠ some "exit" →
        (execute_commands home chdirOk cwd [cmd]).signal = 1) := by
  refine ⟨execute_commands_signal_cases, execute_commands_exit, ?_, ?_⟩
  · intro home chdirOk cwd cmds hlen
    rcases cmds with _ | ⟨c1, _ | ⟨c2, rest⟩⟩
    · simp at hlen
    · simp at hlen
    · exact ⟨rfl, rfl⟩
  · intro home chdirOk cwd cmd hne
    rcases execute_commands_signal_cases home chdirOk cwd [cmd] with h1 | h2
    · exact h1
    · exfalso
      rcases hargs : cmd.args with _ | ⟨a0, args2⟩
      · rw [show execute_commands home chdirOk cwd [cmd] = pureEffects cwd 1 by
            simp [execute_commands, hargs]] at h2
        cases h2
      · by_cases hexit : a0 = "exit"
        · exact hne (by simp [hargs, hexit])
        · by_cases hcd : a0 = "cd"
          · subst hcd
            obtain ⟨args, i, o, b⟩ := cmd
            simp only at hargs
            subst hargs
            rcases args2 with _ | ⟨d, rest2⟩
            · rw [execute_commands_cd_noarg] at h2
              revert h2
              split <;> simp [pureEffects]
            · rw [execute_commands_cd_arg] at h2
              revert h2
              split <;> simp [pureEffects]
          · rw [show execute_commands home chdirOk cwd [cmd] = runExternal cwd [cmd] by
                simp [execute_commands, hargs, hexit, hcd]] at h2
            cases h2

/-- C3 witness: a concrete two-stage pipeline returns `1` and spawns two
processes; the hypotheses of the third conjunct are discharged at it. -/
theorem C3_witness :
    (execute_commands none (fun _ => false) "/" [initCommand, initCommand]).signal = 1 ∧
    (execute_commands none (fun _ => false) "/" [initCommand, initCommand]).spawnCount =
      ([initCommand, initCommand] : List Command).length :=
  C3_control_signals.2.2.1 none (fun _ => false) "/" [initCommand, initCommand] (by decide)

/-- C4: a standalone `&` is accepted only in the final segment with nothing
but whitespace after it: every successfully parsed non-final stage has
`background = false`; an `&` in a non-final segment is rejected
(`ampNotLast`), an `&` followed by non-whitespace content is rejected
(`ampTrailing`), and an accepted `&` marks the final stage background. -/
theorem C4_background_marker :
    (∀ (input : String) (cmds : List Command),
        parse_command input = .ok cmds →
        ∀ (j : Nat) (hj : j < cmds.length), j + 1 ≠ cmds.length →
          (cmds.get ⟨j, hj⟩).background = false) ∧
    parse_command "a & | b" = .error .ampNotLast ∧
    parse_command "a & x" = .error .ampTrailing ∧
    parse_command "a &" = .ok [⟨["a"], none, none, true⟩] ∧
    parse_command "a | b &" =
      .ok [⟨["a"], none, none, false⟩, ⟨["b"], none, none, true⟩] := by
  refine ⟨?_, rfl, rfl, rfl, rfl⟩
  intro input cmds h j hj hne
  have h2 : parseLine (splitOnPred (fun c => c = '|') input.data) = .ok cmds := h
  obtain ⟨_, hloop, _⟩ := parseLine_ok_inv _ cmds h2
  have hlen := parseSegsLoop_length _ _ 0 cmds hloop
  exact parseSegsLoop_background _ _ 0 cmds hloop j hj (by omega)

/-- C4 witness: in the two-stage pipeline `"a | b &"` the non-final stage 0
is not background. -/
theorem C4_witness :
    parse_command "a | b &" =
      .ok [⟨["a"], none, none, false⟩, ⟨["b"], none, none, true⟩] ∧
    (([⟨["a"], none, none, false⟩, ⟨["b"], none, none, true⟩] :
        List Command).get ⟨0, by decide⟩).background = false :=
  ⟨rfl,
    C4_background_marker.1 "a | b &"
      [⟨["a"], none, none, false⟩, ⟨["b"], none, none, true⟩] rfl 0 (by decide) (by decide)⟩

/-- C5: `<` and `>` act only as standalone whitespace-delimited tokens — any
other token is appended as an ordinary argument (first conjunct, a step law
of the token loop) — each takes the next non-empty token as its file path, a
missing operand is a syntax error, and a repeated operator in one segment is
a syntax error. -/
theorem C5_redirection_tokens :
    (∀ (isLast : Bool) (cmd : Command) (tok : List Char) (rest : List (List Char)),
        tok ≠ ['<'] → tok ≠ ['>'] → tok ≠ ['&'] →
        cmd.args.length < MAX_ARGS - 1 →
        parseSegTokens isLast cmd (tok :: rest) =
          parseSegTokens isLast
            { cmd with args := cmd.args ++ [String.mk tok] } rest) ∧
    parse_command "a>b" = .ok [⟨["a>b"], none, none, false⟩] ∧
    parse_command "a > b" = .ok [⟨["a"], none, some "b", false⟩] ∧
    parse_command "a < b" = .ok [⟨["a"], some "b", none, false⟩] ∧
    parse_command "a >" = .error .missingOutputOperand ∧
    parse_command "a <" = .error .missingInputOperand ∧
    parse_command "a > b > c" = .error .dupOutputRedirect ∧
    parse_command "a < b < c" = .error .dupInputRedirect := by
  refine ⟨?_, rfl, rfl, rfl, rfl, rfl, rfl, rfl⟩
  intro isLast cmd tok rest h1 h2 h3 hroom
  rw [parseSegTokens.eq_def]
  simp [h1, h2, h3, hroom]

/-- C5 witness: the step law applied to the concrete token `x` on the empty
state. -/
theorem C5_witness :
    parseSegTokens true initCommand [['x']] =
      parseSegTokens true
        { initCommand with args := initCommand.args ++ [String.mk ['x']] } [] :=
  C5_redirection_tokens.1 true initCommand ['x'] []
    (by decide) (by decide) (by decide) (by decide)

/-- C6: a segment of exactly `MAX_ARGS - 1` = 127 arguments (the line
`argsLine 127` = `"x x … x"`) parses successfully and one of 128 is a syntax
error; a line of exactly `MAX_PIPE` = 16 segments (`pipesLine 16` =
`"x|x|…|x"`) parses successfully and one of 17 is a syntax error. -/
theorem C6_boundaries :
    parse_command (String.mk (argsLine 127)) =
      .ok [⟨List.replicate 127 "x", none, none, false⟩] ∧
    parse_command (String.mk (argsLine 128)) = .error .tooManyArgs ∧
    parse_command (String.mk (pipesLine 16)) =
      .ok (List.replicate 16 ⟨["x"], none, none, false⟩) ∧
    parse_command (String.mk (pipesLine 17)) = .error .tooManySegments :=
  ⟨parse_argsLine_127, parse_argsLine_128, parse_pipesLine_16, parse_pipesLine_17⟩

/-- C7: a single-stage `cd` with argument `d` targets `d`; with no argument
it targets `HOME` (or `"."` when unset); success changes the working
directory to the target, failure leaves it unchanged and reports the failing
path, and in every case the call returns `1` without spawning. -/
theorem C7_cd_builtin :
    (∀ (home : Option String) (chdirOk : String → Bool) (cwd d : String)
        (rest : List String) (i o : Option String) (b : Bool),
        (execute_commands home chdirOk cwd
            [⟨"cd" :: d :: rest, i, o, b⟩]).signal = 1 ∧
        (execute_commands home chdirOk cwd
            [⟨"cd" :: d :: rest, i, o, b⟩]).spawnCount = 0 ∧
        (chdirOk d = true →
          (execute_commands home chdirOk cwd
              [⟨"cd" :: d :: rest, i, o, b⟩]).newCwd = d) ∧
        (chdirOk d = false →
          (execute_commands home chdirOk cwd
              [⟨"cd" :: d :: rest, i, o, b⟩]).newCwd = cwd ∧
          (execute_commands home chdirOk cwd
              [⟨"cd" :: d :: rest, i, o, b⟩]).cdError = some d)) ∧
    (∀ (home : Option String) (chdirOk : String → Bool) (cwd : String)
        (i o : Option String) (b : Bool),
        (execute_commands home chdirOk cwd [⟨["cd"], i, o, b⟩]).signal = 1 ∧
        (execute_commands home chdirOk cwd [⟨["cd"], i, o, b⟩]).spawnCount = 0 ∧
        (chdirOk (home.getD ".") = true →
          (execute_commands home chdirOk cwd [⟨["cd"], i, o, b⟩]).newCwd =
            home.getD ".") ∧
        (chdirOk (home.getD ".") = false →
          (execute_commands home chdirOk cwd [⟨["cd"], i, o, b⟩]).newCwd = cwd ∧
          (execute_commands home chdirOk cwd [⟨["cd"], i, o, b⟩]).cdError =
            some (home.getD "."))) := by
  constructor
  · intro home chdirOk cwd d rest i o b
    rw [execute_commands_cd_arg]
    by_cases hok : chdirOk d
    · rw [if_pos hok]
      exact ⟨rfl, rfl, fun _ => rfl, fun hcontra => by rw [hok] at hcontra; cases hcontra⟩
    · rw [if_neg hok]
      exact ⟨rfl, rfl, fun hcontra => absurd hcontra hok, fun _ => ⟨rfl, rfl⟩⟩
  · intro home chdirOk cwd i o b
    rw [execute_commands_cd_noarg]
    by_cases hok : chdirOk (home.getD ".")
    · rw [if_pos hok]
      exact ⟨rfl, rfl, fun _ => rfl, fun hcontra => by rw [hok] at hcontra; cases hcontra⟩
    · rw [if_neg hok]
      exact ⟨rfl, rfl, fun hcontra => absurd hcontra hok, fun _ => ⟨rfl, rfl⟩⟩

/-- C7 witness: `cd /nonexistent` under an always-failing `chdir` keeps the
working directory and reports the path; the hypotheses are discharged at
concrete inputs. -/
theorem C7_witness :
    (execute_commands (some "/home/user") (fun _ => false) "/tmp"
        [⟨["cd", "/nonexistent"], none, none, false⟩]).newCwd = "/tmp" ∧
    (execute_commands (some "/home/user") (fun _ => false) "/tmp"
        [⟨["cd", "/nonexistent"], none, none, false⟩]).cdError = some "/nonexistent" :=
  (C7_cd_builtin.1 (some "/home/user") (fun _ => false) "/tmp" "/nonexistent"
      [] none none false).2.2.2 rfl

/-- C8: `parse_command` always yields either a pipeline or a syntax error;
on a syntax error the driver loop neither consults a pipeline nor spawns any
process — its outcome for the line is `signal = 1`, `spawned = 0`,
`parseFailed = true` — and it keeps looping. -/
theorem C8_parse_error_isolation :
    (∀ input : String,
        (∃ cmds, parse_command input = .ok cmds) ∨
        (∃ e, parse_command input = .error e)) ∧
    (∀ (home : Option String) (chdirOk : String → Bool) (cwd : String)
        (line : String) (e : ParseErr),
        String.mk (trim_whitespace line.data) ≠ "" →
        parse_command (String.mk (trim_whitespace line.data)) = .error e →
        process_line home chdirOk cwd line =
          { signal := 1, spawned := 0, parseFailed := true }) := by
  constructor
  · intro input
    cases h : parse_command input with
    | ok cmds => exact .inl ⟨cmds, rfl⟩
    | error e => exact .inr ⟨e, rfl⟩
  · intro home chdirOk cwd line e hne herr
    unfold process_line
    rw [if_neg hne, herr]

/-- C8 witness: the line `"a |"` (trailing pipe) is rejected and the loop
iteration for it spawns nothing and continues. -/
theorem C8_witness :
    process_line none (fun _ => true) "/" "a |" =
      { signal := 1, spawned := 0, parseFailed := true } :=
  C8_parse_error_isolation.2 none (fun _ => true) "/" "a |" .emptySegment
    (by decide) rfl

/-- C9: the parser is a pure function of the line text — two successful runs
on the same line agree stage by stage on every field. -/
theorem C9_parse_deterministic (input : String) (cmds1 cmds2 : List Command)
    (h1 : parse_command input = .ok cmds1) (h2 : parse_command input = .ok cmds2) :
    cmds1 = cmds2 ∧ cmds1.length = cmds2.length ∧
    ∀ (j : Nat) (hj1 : j < cmds1.length) (hj2 : j < cmds2.length),
      (cmds1.get ⟨j, hj1⟩).args = (cmds2.get ⟨j, hj2⟩).args ∧
      (cmds1.get ⟨j, hj1⟩).input_file = (cmds2.get ⟨j, hj2⟩).input_file ∧
      (cmds1.get ⟨j, hj1⟩).output_file = (cmds2.get ⟨j, hj2⟩).output_file ∧
      (cmds1.get ⟨j, hj1⟩).background = (cmds2.get ⟨j, hj2⟩).background := by
  have he : cmds1 = cmds2 := by
    have h3 := h1.symm.trans h2
    injection h3
  subst he
  exact ⟨rfl, rfl, fun j hj1 hj2 => ⟨rfl, rfl, rfl, rfl⟩⟩

/-- C9 witness: two parses of `"a"` agree. -/
theorem C9_witness :
    ([⟨["a"], none, none, false⟩] : List Command) = [⟨["a"], none, none, false⟩] :=
  (C9_parse_deterministic "a" [⟨["a"], none, none, false⟩] [⟨["a"], none, none, false⟩]
    rfl rfl).1

/-- C10: for a single-stage `exit` or `cd` the built-in interception happens
before the background flag or the redirection fields are consulted: `exit`
returns `2` with no background notification regardless of the stage's flags,
and `cd` changes directory without opening (creating/truncating) the
stage's redirection files. -/
theorem C10_builtin_priority :
    (∀ (home : Option String) (chdirOk : String → Bool) (cwd : String)
        (rest : List String) (i o : Option String) (b : Bool),
        (execute_commands home chdirOk cwd [⟨"exit" :: rest, i, o, b⟩]).signal = 2 ∧
        (execute_commands home chdirOk cwd [⟨"exit" :: rest, i, o, b⟩]).bgNotify = false ∧
        (execute_commands home chdirOk cwd [⟨"exit" :: rest, i, o, b⟩]).spawnCount = 0 ∧
        (execute_commands home chdirOk cwd [⟨"exit" :: rest, i, o, b⟩]).inputsOpened = [] ∧
        (execute_commands home chdirOk cwd [⟨"exit" :: rest, i, o, b⟩]).outputsOpened = []) ∧
    (∀ (home : Option String) (chdirOk : String → Bool) (cwd d : String)
        (rest : List String) (i o : Option String) (b : Bool),
        (execute_commands home chdirOk cwd [⟨"cd" :: d :: rest, i, o, b⟩]).spawnCount = 0 ∧
        (execute_commands home chdirOk cwd [⟨"cd" :: d :: rest, i, o, b⟩]).inputsOpened = [] ∧
        (execute_commands home chdirOk cwd [⟨"cd" :: d :: rest, i, o, b⟩]).outputsOpened = [] ∧
        (execute_commands home chdirOk cwd [⟨"cd" :: d :: rest, i, o, b⟩]).bgNotify = false ∧
        (chdirOk d = true →
          (execute_commands home chdirOk cwd [⟨"cd" :: d :: rest, i, o, b⟩]).newCwd = d)) := by
  constructor
  · intro home chdirOk cwd rest i o b
    rw [execute_commands_exit]
    exact ⟨rfl, rfl, rfl, rfl, rfl⟩
  · intro home chdirOk cwd d rest i o b
    rw [execute_commands_cd_arg]
    by_cases hok : chdirOk d
    · rw [if_pos hok]
      exact ⟨rfl, rfl, rfl, rfl, fun _ => rfl⟩
    · rw [if_neg hok]
      exact ⟨rfl, rfl, rfl, rfl, fun hcontra => absurd hcontra hok⟩

/-- C10 witness: `"exit &"` (a background-flagged exit stage) and
`"cd dir > file"` (a cd stage with an output sink), as the parser produces
them, instantiate the theorem. -/
theorem C10_witness :
    parse_command "cd dir > file" = .ok [⟨["cd", "dir"], none, some "file", false⟩] ∧
    (execute_commands none (fun _ => true) "/"
        [⟨["cd", "dir"], none, some "file", false⟩]).outputsOpened = [] ∧
    (execute_commands none (fun _ => true) "/"
        [⟨["cd", "dir"], none, some "file", false⟩]).newCwd = "dir" :=
  ⟨rfl,
    (C10_builtin_priority.2 none (fun _ => true) "/" "dir" [] none (some "file") false).2.2.1,
    (C10_builtin_priority.2 none (fun _ => true) "/" "dir" [] none (some "file") false).2.2.2.2 rfl⟩

end Shell
